import Mathlib

/-!
Shallow embedding of the core of `swiftcoder0/area-crime-alert` (src/app.py):
the proximity filter `incidents_within_radius`, the time-window filter
`filter_by_time`, the user-report store (session merge with the durable CSV
log, and the submit handler), and the hotspot aggregation
(`area_stats` / `high_risk_areas`).

Modelling conventions:
- pandas DataFrames become Lean lists of structures, one structure field per
  column; row iteration order is list order.
- Python floats for coordinates and distances become `ℚ`; timestamps become
  `ℤ` (seconds), with `datetime.min` as an explicit lower-bound constant.
- `geopy.distance.geodesic(...).meters` is an external library call; it is
  abstracted as a distance-function parameter `dist : GeoPoint → GeoPoint → ℚ`.
- Python's `list.sort(key=...)` is the stable ascending sort by key, embedded
  as `sortByKey` (insertion sort, which is stable, hence extensionally equal
  to any stable sort by the same key).
-/

/-- A (latitude, longitude) pair, as passed to the geodesic distance call. -/
structure GeoPoint where
  lat : ℚ
  lon : ℚ
  deriving DecidableEq, Repr

/-- One row of the `crimes` DataFrame built by `generate_crime_data` in
src/app.py (columns: id, crime_type, area, severity, timestamp, reports,
lat, lon, source). -/
structure Incident where
  id : ℕ
  crime_type : String
  area : String
  severity : String
  timestamp : ℤ
  reports : ℕ
  lat : ℚ
  lon : ℚ
  source : String
  deriving DecidableEq, Repr

/-- One row of the `user_reports` DataFrame / one record of the durable
`reports.csv` log (columns: id, user, crime_type, area, description,
timestamp, verified, lat, lon). Ids are strings (`str(uuid.uuid4())`, and
`str(row['id'])` at merge time). -/
structure Report where
  id : String
  user : String
  crime_type : String
  area : String
  description : String
  timestamp : ℤ
  verified : Bool
  lat : ℚ
  lon : ℚ
  deriving DecidableEq, Repr

/-- The `(row['lat'], row['lon'])` pair handed to the geodesic call. -/
def Incident.location (i : Incident) : GeoPoint :=
  ⟨i.lat, i.lon⟩

/-- Stable ascending sort by a key, the semantics of Python's
`list.sort(key=...)` (stability is documented for `list.sort`). Insertion
sort is stable, and a stable sort by a key is unique, so this is the exact
embedding. -/
def sortByKey {α β : Type} [LinearOrder β] (k : α → β) (l : List α) : List α :=
  List.insertionSort (fun a b => k a ≤ k b) l

theorem sortByKey_perm {α β : Type} [LinearOrder β] (k : α → β) (l : List α) :
    (sortByKey k l).Perm l :=
  List.perm_insertionSort (fun a b => k a ≤ k b) l

theorem sortByKey_pairwise {α β : Type} [LinearOrder β] (k : α → β) (l : List α) :
    (sortByKey k l).Pairwise (fun a b => k a ≤ k b) := by
  have h1 : IsTotal α (fun a b => k a ≤ k b) := ⟨fun a b => le_total (k a) (k b)⟩
  have h2 : IsTrans α (fun a b => k a ≤ k b) := ⟨fun _ _ _ hab hbc => le_trans hab hbc⟩
  exact List.sorted_insertionSort (fun a b => k a ≤ k b) l

/-- Inserting `x` does not disturb, among elements sharing `x`'s key, anything:
`x` lands in front of every element whose key equals `k x` (elements passed
over have strictly smaller key). -/
theorem orderedInsert_filter_eq_key {α β : Type} [LinearOrder β] (k : α → β)
    (x : α) (l : List α) :
    (List.orderedInsert (fun a b => k a ≤ k b) x l).filter (fun a => k a = k x)
      = x :: l.filter (fun a => k a = k x) := by
  induction l with
  | nil => simp
  | cons y ys ih =>
    by_cases hxy : k x ≤ k y
    · rw [List.orderedInsert, if_pos hxy]
      simp
    · rw [List.orderedInsert, if_neg hxy]
      have hy : ¬ (k y = k x) := fun h => hxy (le_of_eq h.symm)
      simp only [List.filter_cons, decide_eq_true_eq, hy, if_false, ih]

/-- Inserting `x` leaves the subsequence at any key other than `k x` alone. -/
theorem orderedInsert_filter_eq_other {α β : Type} [LinearOrder β] (k : α → β)
    (x : α) (l : List α) (d : β) (hd : k x ≠ d) :
    (List.orderedInsert (fun a b => k a ≤ k b) x l).filter (fun a => k a = d)
      = l.filter (fun a => k a = d) := by
  induction l with
  | nil => simp [hd]
  | cons y ys ih =>
    by_cases hxy : k x ≤ k y
    · rw [List.orderedInsert, if_pos hxy]
      simp [hd]
    · rw [List.orderedInsert, if_neg hxy]
      simp only [List.filter_cons, ih]

/-- Stability of `sortByKey`: for every key value `d`, the sorted list
restricted to elements of key `d` is the input restricted to key `d`, in the
input's order. -/
theorem sortByKey_filter_eq {α β : Type} [LinearOrder β] (k : α → β)
    (l : List α) (d : β) :
    (sortByKey k l).filter (fun a => k a = d) = l.filter (fun a => k a = d) := by
  induction l with
  | nil => rfl
  | cons x xs ih =>
    show (List.orderedInsert _ x (sortByKey k xs)).filter _ = _
    by_cases hx : k x = d
    · subst hx
      rw [orderedInsert_filter_eq_key k x (sortByKey k xs), ih]
      simp
    · rw [orderedInsert_filter_eq_other k x (sortByKey k xs) d hx, ih]
      simp [hx]

/-- Embedding of `incidents_within_radius` (src/app.py lines 168-176): for
each row of `df` in order, the geodesic distance from `user_loc` to the
row's location is computed, rows with `d_m <= radius_m` are kept paired with
their distance, and the result is sorted ascending by distance with
`nearby.sort(key=lambda x: x[1])`. `dist` abstracts the external
`geopy.distance.geodesic(...).meters` call. -/
def incidents_within_radius (dist : GeoPoint → GeoPoint → ℚ)
    (df : List Incident) (user_loc : GeoPoint) (radius_m : ℚ) :
    List (Incident × ℚ) :=
  let nearby := (df.map (fun row => (row, dist user_loc row.location))).filter
    (fun x => x.2 ≤ radius_m)
  sortByKey (fun x => x.2) nearby

/-- Python's `datetime.min` (0001-01-01 00:00:00), in seconds relative to the
Unix epoch: -(719162 days * 86400 s). Every Python `datetime` value is
`>= datetime.min`. -/
def datetime_min : ℤ := -62135596800

/-- `timedelta(days=1)` in seconds. -/
def day : ℤ := 86400

/-- Embedding of `filter_by_time` (src/app.py lines 156-166). The source
computes `now = datetime.now()` internally; `now` is made an explicit
parameter here. The window strings follow the sidebar selectbox; any other
string falls through to the `datetime.min` branch ("All Time"). -/
def filter_by_time (df : List Incident) (time_filter_val : String) (now : ℤ) :
    List Incident :=
  let since : ℤ :=
    if time_filter_val = "Last 24 Hours" then now - day
    else if time_filter_val = "Last 7 Days" then now - 7 * day
    else if time_filter_val = "Last 30 Days" then now - 30 * day
    else datetime_min
  df.filter (fun i => since ≤ i.timestamp)

/-- Embedding of the load-time merge loop (src/app.py lines 96-102):
`existing_ids` is computed once from the session reports before the loop,
and each saved row whose id is not in that (never-updated) set is appended.
Note the id set is NOT refreshed as rows are appended. -/
def merge_saved (session saved : List Report) : List Report :=
  let existing_ids := session.map (fun r => r.id)
  saved.foldl (fun acc row => if row.id ∈ existing_ids then acc else acc ++ [row])
    session

/-- Embedding of the submit handler's in-memory append (src/app.py lines
342-345): an unconditional `pd.concat` of the one-row frame for the new
report; no duplicate-id check of any kind is performed. -/
def submit_report (session : List Report) (r : Report) : List Report :=
  session ++ [r]

/-- Embedding of the submit handler's persistence sequence (src/app.py lines
342-352): the in-memory append happens first, then `to_csv` writes the row
to reports.csv. There is no try/except around `to_csv` in this script, so a
disk-write failure propagates as an exception to the caller, with the
in-memory append already done and never undone. `write_ok` models whether
`to_csv` succeeds; the result is (outcome surfaced to the caller, final
in-memory store). -/
def submit_and_persist (session : List Report) (r : Report) (write_ok : Bool) :
    Except Unit Unit × List Report :=
  let session2 := session ++ [r]
  if write_ok then (Except.ok (), session2) else (Except.error (), session2)

/-- Embedding of `pd.read_csv(REPORTS_FILE, parse_dates=['timestamp'])`
(src/app.py line 94) at the granularity the claims need: each physical row
of the log either parses to a `Report` (`some r`) or is malformed (`none`).
pandas `read_csv` parses the whole file in one call: it returns every row
when all rows parse and raises on the first malformed row, so the embedding
returns `none` as soon as any row is `none`. -/
def read_csv : List (Option Report) → Option (List Report)
  | [] => some []
  | none :: _ => none
  | some r :: rest => (read_csv rest).map (fun l => r :: l)

/-- Embedding of the REPORTS_FILE load block (src/app.py lines 92-104): the
single `try` wraps both the `read_csv` call and the merge loop, and the
`except Exception: pass` leaves the session data untouched when anything in
the block raises. -/
def load_reports (session : List Report) (log : List (Option Report)) :
    List Report :=
  match read_csv log with
  | none => session
  | some saved => merge_saved session saved

/-- One row of the `area_stats` frame (src/app.py lines 403-406), after the
column renames: the groupby key and the two aggregates. -/
structure AreaStat where
  area : String
  high_risk_incidents : ℕ
  total_incidents : ℕ
  deriving DecidableEq, Repr

/-- Embedding of the hotspot aggregation (src/app.py lines 403-406):
`groupby('area')` (default sort=True: one group per distinct area, keys
sorted ascending) aggregated with `severity: lambda x: (x == 'HIGH').sum()`
(count of HIGH rows in the group) and `crime_type: 'count'` (size of the
group; `crime_type` is never null in this frame). -/
def area_stats (df : List Incident) : List AreaStat :=
  (sortByKey (fun a => a) (df.map (fun i => i.area)).dedup).map (fun a =>
    ⟨a,
     (df.filter (fun i => i.area = a ∧ i.severity = "HIGH")).length,
     (df.filter (fun i => i.area = a)).length⟩)

/-- Embedding of the high-risk ranking (src/app.py line 411):
`area_stats[area_stats['high_risk_incidents'] > 0]` (order-preserving mask)
followed by `sort_values('high_risk_incidents', ascending=False)`. pandas
`nargsort` implements a descending sort by reversing the values BEFORE the
ascending argsort and reversing the resulting indexer AFTER (its
stable-descending-sort behavior: with a stable kernel, tied rows keep
their original relative order), and numpy's default argsort is insertion
sort — stable — on the array sizes this app can produce (fewer than 16
groups; the mock data has 6 fixed areas). The embedding is therefore
reverse-input, stable ascending sort by count, reverse-output. -/
def high_risk_areas (stats : List AreaStat) : List AreaStat :=
  (sortByKey (fun s => s.high_risk_incidents)
    ((stats.filter (fun s => 0 < s.high_risk_incidents)).reverse)).reverse

/-- Inserting an element whose second key is strictly below every second key
of a lexicographically ordered list keeps the list lexicographically
ordered (first key primary, second key tie-break). -/
theorem orderedInsert_pairwise_lex {α β γ : Type} [LinearOrder β] [LinearOrder γ]
    (k1 : α → β) (k2 : α → γ) (x : α) (l : List α)
    (hl : l.Pairwise (fun a b => k1 a < k1 b ∨ (k1 a = k1 b ∧ k2 a < k2 b)))
    (hx : ∀ y ∈ l, k2 x < k2 y) :
    (List.orderedInsert (fun a b => k1 a ≤ k1 b) x l).Pairwise
      (fun a b => k1 a < k1 b ∨ (k1 a = k1 b ∧ k2 a < k2 b)) := by
  induction l with
  | nil => simp
  | cons y ys ih =>
    rcases List.pairwise_cons.mp hl with ⟨hy, hys⟩
    by_cases hxy : k1 x ≤ k1 y
    · rw [List.orderedInsert, if_pos hxy]
      refine List.pairwise_cons.mpr ⟨?_, hl⟩
      intro z hz
      have hk2 : k2 x < k2 z := hx z hz
      have hle : k1 x ≤ k1 z := by
        rcases List.mem_cons.mp hz with rfl | hz2
        · exact hxy
        · rcases hy z hz2 with h1 | ⟨h1, _⟩
          · exact le_trans hxy (le_of_lt h1)
          · exact le_trans hxy (le_of_eq h1)
      exact (lt_or_eq_of_le hle).imp id (fun h => ⟨h, hk2⟩)
    · rw [List.orderedInsert, if_neg hxy]
      refine List.pairwise_cons.mpr
        ⟨?_, ih hys (fun z hz => hx z (List.mem_cons_of_mem y hz))⟩
      intro z hz
      rcases (List.mem_orderedInsert _).mp hz with rfl | hz2
      · exact Or.inl (lt_of_not_le hxy)
      · exact hy z hz2

/-- A stable ascending sort by the first key of a list that is strictly
increasing in the second key is lexicographically ordered: first key
ascending, ties in the first key ordered by the second key ascending. -/
theorem sortByKey_pairwise_lex {α β γ : Type} [LinearOrder β] [LinearOrder γ]
    (k1 : α → β) (k2 : α → γ) (l : List α)
    (hl : l.Pairwise (fun a b => k2 a < k2 b)) :
    (sortByKey k1 l).Pairwise
      (fun a b => k1 a < k1 b ∨ (k1 a = k1 b ∧ k2 a < k2 b)) := by
  induction l with
  | nil => exact List.Pairwise.nil
  | cons x xs ih =>
    rcases List.pairwise_cons.mp hl with ⟨hx, hxs⟩
    show (List.orderedInsert _ x (sortByKey k1 xs)).Pairwise _
    refine orderedInsert_pairwise_lex k1 k2 x (sortByKey k1 xs) (ih hxs) ?_
    intro y hy
    exact hx y ((sortByKey_perm k1 xs).mem_iff.mp hy)

/-- Claim C1: for every incident list, center, and radius r ≥ 0, the
proximity filter returns exactly the input incidents whose distance from
the center is ≤ r (inclusive boundary), each paired with that distance (as
a permutation, the output being the sorted retained list), and the output
never contains an entry with distance > r. -/
theorem c1_within_radius_exact (dist : GeoPoint → GeoPoint → ℚ)
    (df : List Incident) (loc : GeoPoint) (r : ℚ) (hr : 0 ≤ r) :
    (incidents_within_radius dist df loc r).Perm
      ((df.map (fun i => (i, dist loc i.location))).filter (fun p => p.2 ≤ r)) ∧
    ∀ p ∈ incidents_within_radius dist df loc r,
      p.1 ∈ df ∧ p.2 = dist loc p.1.location ∧ ¬ r < p.2 := by
  constructor
  · exact sortByKey_perm _ _
  · intro p hp
    have hp2 : p ∈ (df.map (fun i => (i, dist loc i.location))).filter
        (fun p => p.2 ≤ r) := (sortByKey_perm _ _).mem_iff.mp hp
    rw [List.mem_filter] at hp2
    rcases hp2 with ⟨hmem, hle⟩
    rw [List.mem_map] at hmem
    rcases hmem with ⟨i, hi, rfl⟩
    exact ⟨hi, rfl, not_lt.mpr (of_decide_eq_true hle)⟩

/-- Sample center, incidents, reports and distance function for the concrete
instantiations (witnesses) below. -/
def wPoint : GeoPoint := ⟨5, 7⟩

def wInc1 : Incident := ⟨1, "Theft", "Aliganj", "HIGH", 100, 3, 5, 7, "mock"⟩

def wInc2 : Incident := ⟨2, "Robbery", "Gomti Nagar", "LOW", 200, 1, 6, 7, "mock"⟩

def wDist : GeoPoint → GeoPoint → ℚ := fun _ _ => 3

/-- Concrete instantiation of claim C1's theorem at radius 5. -/
theorem c1_witness :
    (0 : ℚ) ≤ 5 ∧
    ((incidents_within_radius wDist [wInc1, wInc2] wPoint 5).Perm
      (([wInc1, wInc2].map (fun i => (i, wDist wPoint i.location))).filter
        (fun p => p.2 ≤ 5)) ∧
     ∀ p ∈ incidents_within_radius wDist [wInc1, wInc2] wPoint 5,
       p.1 ∈ [wInc1, wInc2] ∧ p.2 = wDist wPoint p.1.location ∧ ¬ (5 : ℚ) < p.2) :=
  ⟨by norm_num, c1_within_radius_exact wDist [wInc1, wInc2] wPoint 5 (by norm_num)⟩

/-- Claim C2: the proximity filter's output is sorted non-decreasing by
distance, and entries with equal distance appear in their original input
order (stability, expressed per distance value against the retained list in
input order). -/
theorem c2_within_radius_sorted_stable (dist : GeoPoint → GeoPoint → ℚ)
    (df : List Incident) (loc : GeoPoint) (r : ℚ) :
    (incidents_within_radius dist df loc r).Pairwise (fun p q => p.2 ≤ q.2) ∧
    ∀ d : ℚ, (incidents_within_radius dist df loc r).filter (fun p => p.2 = d)
      = ((df.map (fun i => (i, dist loc i.location))).filter
          (fun p => p.2 ≤ r)).filter (fun p => p.2 = d) := by
  constructor
  · exact sortByKey_pairwise _ _
  · intro d
    exact sortByKey_filter_eq (fun p : Incident × ℚ => p.2) _ d

/-- Claim C6: `filter_by_time` keeps exactly the incidents with
`timestamp >= now - window` (boundary inclusive) for the three bounded
windows; "All Time" keeps every incident independently of `now` (every
Python datetime is ≥ `datetime.min`); and the result is always an
order-preserving subsequence of the input. The function is a pure list
filter in this embedding, mirroring the side-effect-free mask `df[...]`. -/
theorem c6_filter_by_time_spec (df : List Incident) (now : ℤ)
    (hmin : ∀ i ∈ df, datetime_min ≤ i.timestamp) :
    filter_by_time df "Last 24 Hours" now
        = df.filter (fun i => now - day ≤ i.timestamp) ∧
    filter_by_time df "Last 7 Days" now
        = df.filter (fun i => now - 7 * day ≤ i.timestamp) ∧
    filter_by_time df "Last 30 Days" now
        = df.filter (fun i => now - 30 * day ≤ i.timestamp) ∧
    (∀ now2 : ℤ, filter_by_time df "All Time" now2 = df) ∧
    ∀ tf : String, (filter_by_time df tf now).Sublist df := by
  refine ⟨rfl, rfl, rfl, ?_, ?_⟩
  · intro now2
    show df.filter (fun i => datetime_min ≤ i.timestamp) = df
    rw [List.filter_eq_self]
    intro a ha
    exact decide_eq_true (hmin a ha)
  · intro tf
    exact List.filter_sublist df

/-- Concrete instantiation of claim C6's theorem: a single incident with
timestamp 100 s after the epoch (well above `datetime.min`). -/
theorem c6_witness :
    (∀ i ∈ [wInc1], datetime_min ≤ i.timestamp) ∧
    filter_by_time [wInc1] "All Time" 0 = [wInc1] :=
  ⟨by decide, (c6_filter_by_time_spec [wInc1] 200 (by decide)).2.2.2.1 0⟩

/-- Claim C7: `area_stats` has one entry per area present in the input and
no others (its key list is duplicate-free and has the same members as the
input's area column), `total_incidents` counts all incidents of the area
regardless of severity, and `high_risk_incidents` counts those with
severity HIGH. -/
theorem c7_area_stats_spec (df : List Incident) :
    ((area_stats df).map (fun s => s.area)).Nodup ∧
    (∀ a : String,
      a ∈ (area_stats df).map (fun s => s.area) ↔ a ∈ df.map (fun i => i.area)) ∧
    ∀ s ∈ area_stats df,
      s.total_incidents = (df.filter (fun i => i.area = s.area)).length ∧
      s.high_risk_incidents
        = (df.filter (fun i => i.area = s.area ∧ i.severity = "HIGH")).length := by
  have hkeys : (area_stats df).map (fun s => s.area)
      = sortByKey (fun a => a) (df.map (fun i => i.area)).dedup := by
    rw [area_stats, List.map_map]
    exact List.map_id _
  refine ⟨?_, ?_, ?_⟩
  · rw [hkeys]
    exact ((sortByKey_perm _ _).nodup_iff).mpr (List.nodup_dedup _)
  · intro a
    rw [hkeys, (sortByKey_perm _ _).mem_iff, List.mem_dedup]
  · intro s hs
    rw [area_stats, List.mem_map] at hs
    rcases hs with ⟨a, _, rfl⟩
    exact ⟨rfl, rfl⟩

/-- The merge loop appends exactly the saved rows whose id is outside the
fixed initial id set, in log order, regardless of what was appended
earlier in the same loop. -/
theorem foldl_merge_eq (ids : List String) (saved : List Report)
    (acc : List Report) :
    saved.foldl (fun acc row => if row.id ∈ ids then acc else acc ++ [row]) acc
      = acc ++ saved.filter (fun row => row.id ∉ ids) := by
  induction saved generalizing acc with
  | nil => simp
  | cons row rest ih =>
    by_cases h : row.id ∈ ids
    · rw [List.foldl_cons, if_pos h, ih]
      simp [h]
    · rw [List.foldl_cons, if_neg h, ih]
      simp [h]

/-- A report whose id is "x", as submitted twice in the scenario of claim
C3. -/
def rxReport : Report :=
  ⟨"x", "anonymous", "Theft", "", "seen twice", 1000, false, 5, 7⟩

/-- Claim C3 counterexample: submitting the identical report with id "x"
twice grows the store by 2, not 1 — the second (duplicate-id) insert does
change the size of the store, because the submit path performs no id
check. -/
theorem c3_counterexample :
    (submit_report (submit_report [] rxReport) rxReport).length = 2 ∧
    (submit_report (submit_report [] rxReport) rxReport).length
      ≠ (submit_report [] rxReport).length := by
  exact ⟨rfl, by decide⟩

/-- Claim C3 amended: only the load-time merge de-duplicates, and only
against the ids present in the in-memory store before the merge began (the
id set is not refreshed during the loop, so ids duplicated within the log
itself are each inserted); the submit path appends unconditionally, so
every append — duplicate id or not — grows the store by exactly 1. -/
theorem c3_amended (session saved : List Report) (r : Report) :
    merge_saved session saved
      = session ++ saved.filter (fun row => row.id ∉ session.map (fun s => s.id)) ∧
    (submit_report session r).length = session.length + 1 := by
  constructor
  · exact foldl_merge_eq (session.map (fun s => s.id)) saved session
  · simp [submit_report]

/-- Claim C4 counterexample: with the durable write failing, the submit
handler surfaces the error, but the in-memory store ends up containing the
new report — it is not rolled back to the pre-append (empty) state the
claim requires. -/
theorem c4_counterexample :
    (submit_and_persist [] rxReport false).1 = Except.error () ∧
    (submit_and_persist [] rxReport false).2 ≠ ([] : List Report) := by
  refine ⟨rfl, ?_⟩
  intro h
  have := congrArg List.length h
  simp [submit_and_persist] at this

/-- Claim C4 amended: a durable-write failure does surface to the caller
(the uncaught `to_csv` exception propagates), but the in-memory insertion
is NOT rolled back: the store ends as `session ++ [r]` — never equal to the
pre-append state — exactly as on the success path, so on failure the
in-memory store diverges from the durable log. -/
theorem c4_amended (session : List Report) (r : Report) :
    (submit_and_persist session r false).1 = Except.error () ∧
    (submit_and_persist session r false).2 = session ++ [r] ∧
    (submit_and_persist session r false).2 ≠ session ∧
    (submit_and_persist session r true).2 = session ++ [r] := by
  refine ⟨rfl, rfl, ?_, rfl⟩
  intro h
  have h2 := congrArg List.length h
  simp [submit_and_persist] at h2

/-- A well-formed report record with id "a", used as the valid row of a
log that also contains one malformed row. -/
def raReport : Report :=
  ⟨"a", "anonymous", "Theft", "", "valid row", 500, false, 5, 7⟩

/-- If any physical row of the log is malformed, the whole `read_csv` call
fails. -/
theorem read_csv_eq_none_of_mem (log : List (Option Report))
    (h : none ∈ log) : read_csv log = none := by
  induction log with
  | nil => cases h
  | cons o rest ih =>
    cases o with
    | none => rfl
    | some r =>
      rcases List.mem_cons.mp h with h1 | h2
      · simp at h1
      · rw [read_csv, ih h2]
        rfl

/-- If every physical row parses, `read_csv` returns them all in order. -/
theorem read_csv_map_some (saved : List Report) :
    read_csv (saved.map (fun r => some r)) = some saved := by
  induction saved with
  | nil => rfl
  | cons r rest ih => simp [read_csv, ih]

/-- Claim C5 counterexample: a log holding one valid record (id "a") and
one malformed row loads to the untouched session store — the valid record
is NOT in the result, because the single try/except wraps the whole
`read_csv` call and drops the entire log on any parse failure. -/
theorem c5_counterexample :
    load_reports [] [some raReport, none] = [] ∧
    raReport ∉ load_reports [] [some raReport, none] := by
  exact ⟨rfl, by decide⟩

/-- Claim C5 amended: load never raises, but the skip is whole-file, not
per-record: if any row of the log is malformed, the entire log is dropped
and the store is returned unchanged (so valid records in that log are
lost); only when every row parses are the records merged (deduplicated
against the pre-merge store ids). -/
theorem c5_amended (session : List Report) (log : List (Option Report)) :
    (none ∈ log → load_reports session log = session) ∧
    ∀ saved : List Report, log = saved.map (fun r => some r) →
      load_reports session log = merge_saved session saved := by
  constructor
  · intro h
    rw [load_reports, read_csv_eq_none_of_mem log h]
  · intro saved h
    subst h
    rw [load_reports, read_csv_map_some]

/-- Concrete instantiation of claim C5's amended theorem: a log with a
malformed row loads to the unchanged store, and an all-valid log merges. -/
theorem c5_witness :
    none ∈ ([some raReport, none] : List (Option Report)) ∧
    load_reports [] [some raReport, none] = [] ∧
    load_reports [] [some raReport] = merge_saved [] [raReport] :=
  ⟨by decide, (c5_amended [] [some raReport, none]).1 (by decide),
    (c5_amended [] [some raReport]).2 [raReport] rfl⟩

/-- Two incidents in distinct areas "A" and "B", both HIGH, for the tie
scenario of claim C8. -/
def exIncA : Incident := ⟨1, "Theft", "A", "HIGH", 100, 1, 5, 7, "mock"⟩

def exIncB : Incident := ⟨2, "Theft", "B", "HIGH", 100, 1, 5, 7, "mock"⟩

theorem strAB : ("A" : String) ≤ "B" := by
  rw [String.le_iff_toList_le]
  decide

/-- The aggregation on the tie scenario: one group per area, keys sorted
ascending, one HIGH incident each. -/
theorem area_stats_tie :
    area_stats [exIncA, exIncB] = [⟨"A", 1, 1⟩, ⟨"B", 1, 1⟩] := by
  have h1 : (([exIncA, exIncB].map (fun i => i.area))).dedup = ["A", "B"] := by
    decide
  rw [area_stats, h1]
  rw [show sortByKey (fun a => a) ["A", "B"] = ["A", "B"] from by
    rw [sortByKey]
    simp only [List.insertionSort, List.orderedInsert]
    rw [if_pos strAB]]
  decide

/-- The ranking on the tie scenario: the stable descending sort keeps the
tied areas in their original ascending key order, ["A", "B"]. -/
theorem high_risk_areas_tie :
    high_risk_areas [⟨"A", 1, 1⟩, ⟨"B", 1, 1⟩] = [⟨"A", 1, 1⟩, ⟨"B", 1, 1⟩] := by
  decide

/-- The aggregation's rows are strictly ascending in the area key: the
groupby keys are sorted and duplicate-free. -/
theorem area_stats_pairwise_area (df : List Incident) :
    (area_stats df).Pairwise (fun s t => s.area < t.area) := by
  rw [area_stats, List.pairwise_map]
  have hnd : (sortByKey (fun a => a) (df.map (fun i => i.area)).dedup).Nodup :=
    ((sortByKey_perm _ _).nodup_iff).mpr (List.nodup_dedup _)
  have hle := sortByKey_pairwise (fun a : String => a)
    (df.map (fun i => i.area)).dedup
  exact (hle.and hnd).imp (fun h => lt_of_le_of_ne h.1 h.2)

/-- A stable ascending sort by the first key of a list that is strictly
DECREASING in the second key is lexicographically ordered with ties in the
first key ordered by the second key descending (stability keeps the input
order within ties). -/
theorem sortByKey_pairwise_lex_desc {α β γ : Type} [LinearOrder β] [LinearOrder γ]
    (k1 : α → β) (k2 : α → γ) (l : List α)
    (hl : l.Pairwise (fun a b => k2 b < k2 a)) :
    (sortByKey k1 l).Pairwise
      (fun a b => k1 a < k1 b ∨ (k1 a = k1 b ∧ k2 b < k2 a)) :=
  sortByKey_pairwise_lex k1 (fun s => OrderDual.toDual (k2 s)) l hl

/-- Claim C8: the high-risk ranking orders areas by highSeverityCount
descending with ties broken by area name ascending (pandas' stable
descending sort keeps tied rows in the groupby's ascending key order), a
strict lexicographic order, so the ranking is deterministic for every
input. -/
theorem c8_high_risk_ranking (df : List Incident) :
    (high_risk_areas (area_stats df)).Pairwise
      (fun s t => t.high_risk_incidents < s.high_risk_incidents ∨
        (s.high_risk_incidents = t.high_risk_incidents ∧ s.area < t.area)) := by
  rw [high_risk_areas, List.pairwise_reverse]
  have hin : (((area_stats df).filter
      (fun s => 0 < s.high_risk_incidents)).reverse).Pairwise
      (fun s t : AreaStat => t.area < s.area) := by
    rw [List.pairwise_reverse]
    exact List.Pairwise.sublist (List.filter_sublist _) (area_stats_pairwise_area df)
  have h := sortByKey_pairwise_lex_desc (fun s : AreaStat => s.high_risk_incidents)
    (fun s : AreaStat => s.area) _ hin
  exact h.imp (fun hab => hab.imp id (fun hc => ⟨hc.1.symm, hc.2⟩))

/-- Claim C10: for a negative radius the proximity filter returns the empty
list and signals no error, given that the distance function is non-negative
(as the geodesic distance is). -/
theorem c10_negative_radius (dist : GeoPoint → GeoPoint → ℚ)
    (df : List Incident) (loc : GeoPoint) (r : ℚ)
    (hd : ∀ a b : GeoPoint, 0 ≤ dist a b) (hr : r < 0) :
    incidents_within_radius dist df loc r = [] := by
  rw [incidents_within_radius]
  have hfil : (df.map (fun row => (row, dist loc row.location))).filter
      (fun x => x.2 ≤ r) = [] := by
    rw [List.filter_eq_nil_iff]
    intro p hp
    rw [List.mem_map] at hp
    rcases hp with ⟨i, _, rfl⟩
    simp only [decide_eq_true_eq]
    intro hle
    exact absurd (le_trans (hd loc i.location) hle) (not_le.mpr hr)
  rw [hfil]
  rfl

/-- Concrete instantiation of claim C10's theorem at radius -1 with a
non-negative distance function. -/
theorem c10_witness :
    (∀ a b : GeoPoint, 0 ≤ wDist a b) ∧ ((-1 : ℚ) < 0) ∧
    incidents_within_radius wDist [wInc1] wPoint (-1) = [] :=
  ⟨fun _ _ => by norm_num [wDist], by norm_num,
    c10_negative_radius wDist [wInc1] wPoint (-1) (fun _ _ => by norm_num [wDist])
      (by norm_num)⟩
